import Mathlib

/-
Shallow embedding of `src/graph.py` (project DeepFreeze): the Graph/Layer
intermediate representation built from a TensorFlow computation graph.

Modelling conventions:
* A TensorFlow tensor is modelled as an inductive tree `Tensor`: each tensor
  carries an identity (`tid`), its static shape (dims are `Option Int`, `none`
  for an unknown dimension, an empty list for a fully unknown shape), and the
  data of its producing op (`opId` for op identity, the op's type tag, its
  attributes and its ordered input tensors).  Python compares tensors and ops
  by object identity; the model compares `tid` / `opId`.
* Python exceptions are modelled by `Except PyErr`; an unguarded `list[i]`
  is `pyIndex`, an unguarded `dict[k]` is `pyDictGet`, a bare unbound name is
  `PyErr.nameError`, and `x.attr` on `None` is `PyErr.attributeError`.
* `list(set(xs))` has unspecified order in Python; it is modelled by
  `dedupStr` / `dedupOps`, deduplication keeping first occurrences.
* `get_variable_from_graph` (materialization of a parameter from a
  checkpoint via a TF session) is an external collaborator (spec section 6);
  it is modelled as the identity on the requested tensor, so every statement
  about a "materialized value" is a statement about which tensor is handed
  to the parameter store.
-/

/-! ## Layer type constants (src/graph.py lines 16-27) -/

def DEPTHWISE_SEPARABLE_CONV_2D : String := "ds_conv_2d"

def DEPTHWISE_CONV_2D : String := "dw_conv_2d"

def CONV_2D : String := "conv_2d"

def DENSE : String := "dense"

def MAX_POOL_2D : String := "max_pool_2d"

def AVG_POOL_2D : String := "avg_pool_2d"

def FLATTEN : String := "flatten"

def LAYER_TYPES_CONV : List String :=
  [DEPTHWISE_SEPARABLE_CONV_2D, DEPTHWISE_CONV_2D, CONV_2D]

def LAYER_TYPES_POOL : List String := [MAX_POOL_2D, AVG_POOL_2D]

def LAYER_TYPES_2D : List String := LAYER_TYPES_CONV ++ LAYER_TYPES_POOL

def LAYER_TYPES_TRAINABLE : List String := LAYER_TYPES_CONV ++ [DENSE]

/-! ## External-world data model -/

/-- A TensorFlow op attribute value: list-valued (`ksize`, `strides`) or a
plain string (`padding`). -/
inductive AttrVal where
  | ints (l : List Int)
  | str (s : String)
deriving DecidableEq, Repr

/-- Python failure modes relevant to src/graph.py. -/
inductive PyErr where
  | exception (msg : String)
  | nameError (missing : String)
  | attributeError
  | indexError
  | keyError
  | valueError
deriving DecidableEq, Repr

/-- A tensor together with the backward-closure of its producing op.
`tid` is the tensor's identity, `shape` its static shape, and the remaining
fields are the producing op: `opId` (op identity), `opType` (type tag),
`attrs` (named attributes) and `opInputs` (the op's ordered input tensors). -/
inductive Tensor where
  | mk (tid : Nat) (shape : List (Option Int)) (opId : Nat) (opType : String)
      (attrs : List (String × AttrVal)) (opInputs : List Tensor)

def Tensor.tid : Tensor → Nat
  | .mk i _ _ _ _ _ => i

def Tensor.shape : Tensor → List (Option Int)
  | .mk _ s _ _ _ _ => s

def Tensor.opId : Tensor → Nat
  | .mk _ _ o _ _ _ => o

def Tensor.opType : Tensor → String
  | .mk _ _ _ t _ _ => t

def Tensor.attrs : Tensor → List (String × AttrVal)
  | .mk _ _ _ _ a _ => a

def Tensor.opInputs : Tensor → List Tensor
  | .mk _ _ _ _ _ i => i

instance : Inhabited Tensor := ⟨Tensor.mk 0 [] 0 "" [] []⟩

/-- One op of the computation graph, as seen from a tensor: its identity,
type tag, attributes and ordered input tensors. -/
structure OpInfo where
  opId : Nat
  type : String
  attrs : List (String × AttrVal)
  inputs : List Tensor

/-- The op producing a tensor (`tensor.op` in the source). -/
def Tensor.op (t : Tensor) : OpInfo :=
  ⟨t.opId, t.opType, t.attrs, t.opInputs⟩

/-- The endpoint mapping: the fixed, ordered name → tensor dictionary. -/
def Endpoints : Type := List (String × Tensor)

/-- `get_tensor_shape` (src lines 47-55): the shape as a list with `none`
for unknown dimensions.  The model stores that list directly on the tensor. -/
def get_tensor_shape (t : Tensor) : List (Option Int) := t.shape

/-- `get_variable_from_graph` (src lines 57-61) materializes a tensor's value
from a checkpoint through an external TF session (spec section 6).  Modelled
as the identity on the requested tensor: results carry which tensor was
requested from the parameter store, not its numeric contents. -/
def get_variable_from_graph (v : Tensor) : Tensor := v

/-- `get_layer_name` (src lines 40-45): the first endpoint name whose tensor
is (identity-)equal to `t`; `none` when `t` is no endpoint tensor. -/
def get_layer_name (t : Tensor) (endpoints : Endpoints) : Option String :=
  (endpoints.find? (fun p => p.2.tid == t.tid)).map Prod.fst

/-- `tensor in endpoints.values()`: identity membership among the endpoint
tensors. -/
def isEndpointTensor (endpoints : Endpoints) (t : Tensor) : Bool :=
  endpoints.any (fun p => p.2.tid == t.tid)

/-- Python `dict[k]` on the endpoint mapping: `KeyError` when absent. -/
def pyDictGet (endpoints : Endpoints) (k : String) : Except PyErr Tensor :=
  match endpoints.find? (fun p => p.1 == k) with
  | some p => .ok p.2
  | none => .error .keyError

/-- Python `l[i]` with a non-negative index: `IndexError` when out of range. -/
def pyIndex {α : Type} (l : List α) (i : Nat) : Except PyErr α :=
  match l.get? i with
  | some x => .ok x
  | none => .error .indexError

/-- Python `op.inputs` where `op` may be `None` (`AttributeError` then). -/
def pyOpInputs (o : Option OpInfo) : Except PyErr (List Tensor) :=
  match o with
  | some op => .ok op.inputs
  | none => .error .attributeError

/-- Python `op.get_attr(k)` where `op` may be `None`. -/
def pyGetAttr (o : Option OpInfo) (k : String) : Except PyErr AttrVal :=
  match o with
  | none => .error .attributeError
  | some op =>
    match op.attrs.find? (fun p => p.1 == k) with
    | some p => .ok p.2
    | none => .error .valueError

/-- Deterministic model of Python's `list(set(names))`: deduplication
keeping the first occurrence of each name (set order is unspecified in
Python; no claim depends on it). -/
def dedupStr : List String → List String :=
  go []
where
  go (seen : List String) : List String → List String
    | [] => []
    | n :: rest => if n ∈ seen then go seen rest else n :: go (n :: seen) rest

/-- Deterministic model of `list(set(layer_ops))`: deduplication by op
identity keeping first occurrences. -/
def dedupOps : List OpInfo → List OpInfo :=
  go []
where
  go (seen : List Nat) : List OpInfo → List OpInfo
    | [] => []
    | o :: rest => if o.opId ∈ seen then go seen rest else o :: go (o.opId :: seen) rest

/-! ## Layer helper functions (`Layer.__...`, src lines 160-302) -/

mutual

/-- `Layer.__get_layer_ops` (src lines 180-188) before the `list(set(...))`:
the tensor's producing op followed by the ops collected from every non-endpoint
input, recursively. -/
def rawLayerOps (endpoints : Endpoints) : Tensor → List OpInfo
  | .mk _ _ opId opType attrs opInputs =>
    ⟨opId, opType, attrs, opInputs⟩ :: rawLayerOpsList endpoints opInputs

def rawLayerOpsList (endpoints : Endpoints) : List Tensor → List OpInfo
  | [] => []
  | t :: ts =>
    (if isEndpointTensor endpoints t then [] else rawLayerOps endpoints t)
      ++ rawLayerOpsList endpoints ts

end

/-- `Layer.__get_layer_ops` with its final `list(set(...))`. -/
def get_layer_ops (endpoints : Endpoints) (t : Tensor) : List OpInfo :=
  dedupOps (rawLayerOps endpoints t)

mutual

/-- `Layer.__get_input_layer_names` (src lines 160-170): for each input of the
producing op, record the endpoint name when the input is an endpoint tensor,
otherwise recurse past it; `list(set(...))` at every level.  The guarded
`get_layer_name` call always succeeds, so `Option.toList` models the
`[get_layer_name(...)]` append. -/
def get_input_layer_names (endpoints : Endpoints) : Tensor → List String
  | .mk _ _ _ _ _ opInputs => dedupStr (inputLayerNamesList endpoints opInputs)

def inputLayerNamesList (endpoints : Endpoints) : List Tensor → List String
  | [] => []
  | t :: ts =>
    (if isEndpointTensor endpoints t then (get_layer_name t endpoints).toList
     else get_input_layer_names endpoints t)
      ++ inputLayerNamesList endpoints ts

end

/-- `Layer.__get_output_layer_names` (src lines 172-178): every endpoint
whose own backward input walk records this layer's name, in endpoint order. -/
def get_output_layer_names (name : String) (endpoints : Endpoints) : List String :=
  (endpoints.filter
    (fun p => (get_input_layer_names endpoints p.2).contains name)).map Prod.fst

/-- Message of the classifier failure (src line 209). -/
def unrecognizedLayerMsg : String := "Could not match layer with a known op type"

/-- `Layer.__get_op_type` (src lines 190-209): the ordered first-match rule
chain over the op type tags of the layer's owned ops. -/
def get_op_type (layer_ops : List OpInfo) : Except PyErr String :=
  let layer_ops_types := layer_ops.map OpInfo.type
  if layer_ops_types.contains "DepthwiseConv2dNative"
      && layer_ops_types.contains "Conv2D" then
    .ok DEPTHWISE_SEPARABLE_CONV_2D
  else if layer_ops_types.contains "DepthwiseConv2dNative" then
    .ok DEPTHWISE_CONV_2D
  else if layer_ops_types.contains "Conv2D" then
    .ok CONV_2D
  else if layer_ops_types.contains "MatMul" then
    .ok DENSE
  else if layer_ops_types.contains "MaxPool" then
    .ok MAX_POOL_2D
  else if layer_ops_types.contains "AvgPool" then
    .ok AVG_POOL_2D
  else if layer_ops_types.contains "Reshape" then
    .ok FLATTEN
  else
    .error (.exception unrecognizedLayerMsg)

/-- `Layer.__get_op_by_type` (src lines 211-215): first owned op with the
given type tag, else `None`. -/
def get_op_by_type (layer_ops : List OpInfo) (op_type : String) : Option OpInfo :=
  layer_ops.find? (fun op => op.type == op_type)

/-- The backward walk of `Layer.__get_input_shapes` for an entry layer
(src lines 220-227): while the current tensor's op has inputs, record the
current shape, step to the op's first input, and return the recorded shape
as soon as the new tensor's shape is empty or (2D layers) not rank 4; when
a producerless tensor is reached its own shape is returned. -/
def inputShapeWalk (is2d : Bool) : Tensor → List (Option Int)
  | .mk _ curShape _ _ _ [] => curShape
  | .mk _ curShape _ _ _ (inp :: _) =>
    if (get_tensor_shape inp).isEmpty
        || (is2d && !((get_tensor_shape inp).length == 4)) then
      curShape
    else
      inputShapeWalk is2d inp

/-- `Layer.__get_input_shapes` (src lines 217-229). -/
def get_input_shapes (endpoints : Endpoints) (input_names : List String)
    (op_type : String) (t : Tensor) : Except PyErr (List (List (Option Int))) :=
  if input_names.isEmpty then
    .ok [inputShapeWalk (LAYER_TYPES_2D.contains op_type) t]
  else
    input_names.mapM (fun n => (pyDictGet endpoints n).map get_tensor_shape)

/-- `Layer.__get_output_shape` (src lines 231-232). -/
def get_output_shape (t : Tensor) : List (Option Int) :=
  get_tensor_shape t

/-- The weights of a trainable layer: a single array, or the
[depthwise, pointwise] pair for a separable convolution. -/
inductive Weights where
  | single (w : Tensor)
  | pair (dw pw : Tensor)

/-- `Layer.__get_weights` (src lines 234-253): the second input of the
op-type-specific weight-bearing op, materialized. -/
def get_weights (name : String) (op_type : String) (layer_ops : List OpInfo) :
    Except PyErr Weights := do
  if op_type == DEPTHWISE_SEPARABLE_CONV_2D then
    let dwIns ← pyOpInputs (get_op_by_type layer_ops "DepthwiseConv2dNative")
    let depthwise_weights ← pyIndex dwIns 1
    let pwIns ← pyOpInputs (get_op_by_type layer_ops "Conv2D")
    let pointwise_weights ← pyIndex pwIns 1
    pure (.pair (get_variable_from_graph depthwise_weights)
      (get_variable_from_graph pointwise_weights))
  else if op_type == DEPTHWISE_CONV_2D then
    let ins ← pyOpInputs (get_op_by_type layer_ops "DepthwiseConv2dNative")
    let weights ← pyIndex ins 1
    pure (.single (get_variable_from_graph weights))
  else if op_type == CONV_2D then
    let ins ← pyOpInputs (get_op_by_type layer_ops "Conv2D")
    let weights ← pyIndex ins 1
    pure (.single (get_variable_from_graph weights))
  else if op_type == DENSE then
    let ins ← pyOpInputs (get_op_by_type layer_ops "MatMul")
    let weights ← pyIndex ins 1
    pure (.single (get_variable_from_graph weights))
  else
    .error (.exception ("No weights found in layer: " ++ name))

/-- `Layer.__get_bias` (src lines 255-264).  The dense fallback branch reads
the bare name `__get_op_by_type` (missing `self.`), so whenever the guard
`self.op_type == DENSE` is reached and true, evaluating the conjunction
raises `NameError` before any op lookup happens. -/
def get_bias (name : String) (op_type : String) (layer_ops : List OpInfo) :
    Except PyErr Tensor :=
  match get_op_by_type layer_ops "BiasAdd" with
  | some op => (pyIndex op.inputs 1).map get_variable_from_graph
  | none =>
    if op_type == DENSE then .error (.nameError "__get_op_by_type")
    else .error (.exception ("No bias found in layer: " ++ name))

/-- `Layer.__get_2d_op` (src lines 269-280): the governing 2D op of the
layer (may be `None` when the lookup misses). -/
def get_2d_op (name : String) (op_type : String) (layer_ops : List OpInfo) :
    Except PyErr (Option OpInfo) :=
  if [DEPTHWISE_SEPARABLE_CONV_2D, DEPTHWISE_CONV_2D].contains op_type then
    .ok (get_op_by_type layer_ops "DepthwiseConv2dNative")
  else if op_type == CONV_2D then
    .ok (get_op_by_type layer_ops "Conv2D")
  else if op_type == MAX_POOL_2D then
    .ok (get_op_by_type layer_ops "MaxPool")
  else if op_type == AVG_POOL_2D then
    .ok (get_op_by_type layer_ops "AvgPool")
  else
    .error (.exception ("No 2d operations in layer: " ++ name))

/-- `Layer.__get_kernel_size` (src lines 282-292).  For the convolution
branches the source slices the materialized weight array's shape; under the
identity modelling of materialization this is the weight tensor's static
shape.  For pooling branches: positions 1 and 2 of the `ksize` attribute. -/
def get_kernel_size (name : String) (op_type : String) (weights : Option Weights)
    (layer_ops : List OpInfo) : Except PyErr (List (Option Int)) :=
  if op_type == DEPTHWISE_SEPARABLE_CONV_2D then
    match weights with
    | some (.pair dw _) => .ok ((get_tensor_shape dw).take 2)
    | _ => .error .attributeError
  else if [DEPTHWISE_CONV_2D, CONV_2D].contains op_type then
    match weights with
    | some (.single w) => .ok ((get_tensor_shape w).take 2)
    | _ => .error .attributeError
  else if [MAX_POOL_2D, AVG_POOL_2D].contains op_type then do
    let op ← get_2d_op name op_type layer_ops
    let kernel_size ← pyGetAttr op "ksize"
    match kernel_size with
    | .ints l => do
      let k1 ← pyIndex l 1
      let k2 ← pyIndex l 2
      pure [some k1, some k2]
    | .str _ => .error .valueError
  else
    .error (.exception ("No kernel size for layer: " ++ name))

/-- `Layer.__get_strides` (src lines 294-297): positions 1 and 2 of the
governing 2D op's `strides` attribute. -/
def get_strides (name : String) (op_type : String) (layer_ops : List OpInfo) :
    Except PyErr (Int × Int) := do
  let op ← get_2d_op name op_type layer_ops
  let strides ← pyGetAttr op "strides"
  match strides with
  | .ints l => do
    let s1 ← pyIndex l 1
    let s2 ← pyIndex l 2
    pure (s1, s2)
  | .str _ => .error .valueError

/-- `Layer.__get_padding` (src lines 299-302): the `padding` attribute,
passed through verbatim. -/
def get_padding (name : String) (op_type : String) (layer_ops : List OpInfo) :
    Except PyErr AttrVal := do
  let op ← get_2d_op name op_type layer_ops
  let padding ← pyGetAttr op "padding"
  pure padding

/-! ## The Layer record and its constructor (src lines 135-158) -/

/-- The IR unit built by `Layer.__init__`.  The trainable-only and 2D-only
attributes are `Option`-valued: `none` models the Python attribute being
unset for the other layer kinds. -/
structure Layer where
  name : String
  op_type : String
  input_names : List String
  output_names : List String
  input_shapes : List (List (Option Int))
  output_shape : List (Option Int)
  weights : Option Weights
  bias : Option Tensor
  kernel_size : Option (List (Option Int))
  strides : Option (Int × Int)
  padding : Option AttrVal
  has_relu : Bool

/-- `Layer.__init__` (src lines 136-158), with the source's evaluation
order: endpoint lookup, owned-op collection, classification, connectivity,
shapes, then (trainable) weights and bias, then (2D) kernel size, strides
and padding, then the fused-relu flag.  Any failure aborts construction. -/
def Layer.build (name : String) (endpoints : Endpoints) : Except PyErr Layer := do
  let tensor ← pyDictGet endpoints name
  let layer_ops := get_layer_ops endpoints tensor
  let op_type ← get_op_type layer_ops
  let input_names := get_input_layer_names endpoints tensor
  let output_names := get_output_layer_names name endpoints
  let input_shapes ← get_input_shapes endpoints input_names op_type tensor
  let output_shape := get_output_shape tensor
  let wb ←
    if LAYER_TYPES_TRAINABLE.contains op_type then do
      let w ← get_weights name op_type layer_ops
      let b ← get_bias name op_type layer_ops
      pure (some (w, b))
    else
      pure none
  let ksp ←
    if LAYER_TYPES_2D.contains op_type then do
      let k ← get_kernel_size name op_type (wb.map Prod.fst) layer_ops
      let s ← get_strides name op_type layer_ops
      let p ← get_padding name op_type layer_ops
      pure (some (k, s, p))
    else
      pure none
  pure { name := name
         op_type := op_type
         input_names := input_names
         output_names := output_names
         input_shapes := input_shapes
         output_shape := output_shape
         weights := wb.map Prod.fst
         bias := wb.map Prod.snd
         kernel_size := ksp.map (fun x => x.1)
         strides := ksp.map (fun x => x.2.1)
         padding := ksp.map (fun x => x.2.2)
         has_relu := (get_op_by_type layer_ops "Relu").isSome }

/-! ## The Graph container (src lines 64-123) -/

/-- The ordered layer container with its removal record. -/
structure Graph where
  name : String
  layers : List Layer
  removed_layer_names : List String

/-- `Graph.__init__` (src lines 65-68). -/
def Graph.init (name : String) : Graph :=
  { name := name, layers := [], removed_layer_names := [] }

/-- The scrub step of `Graph.add_layer` (src lines 72-76): for each recorded
removed name, remove its first occurrence (Python `list.remove` guarded by
`in`, i.e. `List.erase`) from the incoming layer's `input_names` and
`output_names`.  The per-name loop acts on the two fields independently. -/
def scrubRemovedNames (removed_layer_names : List String) (layer : Layer) : Layer :=
  { layer with
    input_names := removed_layer_names.foldl List.erase layer.input_names
    output_names := removed_layer_names.foldl List.erase layer.output_names }

/-- `Graph.add_layer` (src lines 70-77): scrub the incoming layer against
the current removal set, then append it. -/
def Graph.add_layer (g : Graph) (layer : Layer) : Graph :=
  { g with layers := g.layers ++ [scrubRemovedNames g.removed_layer_names layer] }

/-- The scrub step of `Graph.remove_layer` (src lines 82-85): erase one
occurrence of the removed layer's name from a stored layer's connectivity. -/
def scrubLayerName (layer_name : String) (layer : Layer) : Layer :=
  { layer with
    input_names := layer.input_names.erase layer_name
    output_names := layer.output_names.erase layer_name }

/-- `Graph.remove_layer` (src lines 79-86): strip the removed layer's name
from every stored layer and record the name.  The layer list itself is
untouched. -/
def Graph.remove_layer (g : Graph) (layer : Layer) : Graph :=
  { g with
    layers := g.layers.map (scrubLayerName layer.name)
    removed_layer_names := g.removed_layer_names ++ [layer.name] }

/-- `Graph.remove_layer_references` (src lines 88-89): alias of
`remove_layer`. -/
def Graph.remove_layer_references (g : Graph) (layer : Layer) : Graph :=
  g.remove_layer layer

/-- `Graph.find_layer` (src lines 91-95): first stored layer with the given
name, else `None`. -/
def Graph.find_layer (g : Graph) (name : String) : Option Layer :=
  g.layers.find? (fun layer => layer.name == name)

/-- `Graph.get_input_layer` (src lines 97-101): first stored layer with
empty `input_names`. -/
def Graph.get_input_layer (g : Graph) : Option Layer :=
  g.layers.find? (fun layer => layer.input_names.isEmpty)

/-- `Graph.get_output_layer` (src lines 103-107): first stored layer with
empty `output_names`. -/
def Graph.get_output_layer (g : Graph) : Option Layer :=
  g.layers.find? (fun layer => layer.output_names.isEmpty)

/-- `Graph.get_next_layer` (src lines 109-115): look up the first element of
the current layer's `output_names`; `None` when the current layer is `None`
or has no outputs, and the `find_layer` miss is passed through as `None`. -/
def Graph.get_next_layer (g : Graph) (cur_layer : Option Layer) : Option Layer :=
  match cur_layer with
  | none => none
  | some l =>
    match l.output_names with
    | [] => none
    | next_layer_name :: _ => g.find_layer next_layer_name

/-- The while loop of `Graph.get_ordered_layers` (src lines 120-122),
with explicit fuel standing for the unbounded iteration: once the chain
reaches `none` the remaining fuel is irrelevant (proved below), so the loop's
value is the stabilized value of this function. -/
def orderedAux (g : Graph) : Nat → Option Layer → List Layer
  | 0, _ => []
  | _ + 1, none => []
  | fuel + 1, some l => l :: orderedAux g fuel (g.get_next_layer (some l))

/-- `Graph.get_ordered_layers` (src lines 117-123) with explicit fuel. -/
def Graph.get_ordered_layers (g : Graph) (fuel : Nat) : List Layer :=
  orderedAux g fuel g.get_input_layer

/-! ## The construction pass (`parse_tf_graph`, src lines 328-343) -/

/-- The layer loop of `parse_tf_graph` (src lines 336-341): build one layer
per endpoint name in order; a failure aborts the whole pass (fail-fast), a
non-2D layer under `only_2d` is discarded through `remove_layer_references`,
every other layer is inserted. -/
def parseLoop (endpoints : Endpoints) (only_2d : Bool) :
    List String → Graph → Except PyErr Graph
  | [], g => .ok g
  | layer_name :: rest, g => do
    let layer ← Layer.build layer_name endpoints
    if only_2d && !(LAYER_TYPES_2D.contains layer.op_type) then
      parseLoop endpoints only_2d rest (g.remove_layer_references layer)
    else
      parseLoop endpoints only_2d rest (g.add_layer layer)

/-- `parse_tf_graph` (src lines 328-343) after the external deserialization
steps: run the layer loop over the endpoint names on a fresh graph. -/
def parse_tf_graph (model_name : String) (endpoints : Endpoints)
    (only_2d : Bool) : Except PyErr Graph :=
  parseLoop endpoints only_2d (endpoints.map Prod.fst) (Graph.init model_name)

/-! ## Claim-side and spec-side definitions -/

/-- One container operation, for reasoning about arbitrary sequences of
`add_layer` / `remove_layer` calls. -/
inductive GraphOp where
  | add (layer : Layer)
  | remove (layer : Layer)

/-- Apply one container operation. -/
def applyGraphOp (g : Graph) : GraphOp → Graph
  | .add layer => g.add_layer layer
  | .remove layer => g.remove_layer layer

/-- Run a sequence of container operations. -/
def runGraphOps (g : Graph) (ops : List GraphOp) : Graph :=
  ops.foldl applyGraphOp g

/-- A layer added by an operation has duplicate-free connectivity lists:
the data-model reading of `input_names` / `output_names` as name sets
(spec section 3), and what `Layer.build` produces (it deduplicates via
`list(set(...))` and via unique endpoint names). -/
def graphOpSetLike : GraphOp → Bool
  | .add layer => layer.input_names.Nodup && layer.output_names.Nodup
  | .remove _ => true

/-- The claimed Graph invariant: no stored layer references a removed name. -/
def cleanGraph (g : Graph) : Prop :=
  ∀ layer ∈ g.layers, ∀ n ∈ g.removed_layer_names,
    n ∉ layer.input_names ∧ n ∉ layer.output_names

/-- Auxiliary invariant: every stored layer has duplicate-free
connectivity lists. -/
def graphNodup (g : Graph) : Prop :=
  ∀ layer ∈ g.layers, layer.input_names.Nodup ∧ layer.output_names.Nodup

/-- The seven classification rules in the spec's stated order (spec
section 4.2), each as a predicate on the layer's op type tags. -/
def classifierRules : List (String × (List String → Bool)) :=
  [ (DEPTHWISE_SEPARABLE_CONV_2D,
      fun ts => ts.contains "DepthwiseConv2dNative" && ts.contains "Conv2D"),
    (DEPTHWISE_CONV_2D, fun ts => ts.contains "DepthwiseConv2dNative"),
    (CONV_2D, fun ts => ts.contains "Conv2D"),
    (DENSE, fun ts => ts.contains "MatMul"),
    (MAX_POOL_2D, fun ts => ts.contains "MaxPool"),
    (AVG_POOL_2D, fun ts => ts.contains "AvgPool"),
    (FLATTEN, fun ts => ts.contains "Reshape") ]

/-- Spec-side classifier: the first matching rule determines the op type. -/
def classifierFirstMatch (ts : List String) : Option String :=
  (classifierRules.find? (fun r => r.2 ts)).map Prod.fst

/-- Spec-side classifier as a fallible function: first match wins, no match
is the unrecognized-layer failure. -/
def opTypeSpec (ts : List String) : Except PyErr String :=
  match classifierFirstMatch ts with
  | some t => .ok t
  | none => .error (.exception unrecognizedLayerMsg)

/-- Spec-side entry-layer shape walk, written from the claim's words: walk
backward from the layer's tensor through first inputs; on reaching a tensor
whose shape is entirely unknown (no recorded dimensions) or — for 2D-family
layers only — whose shape does not have rank 4, return the shape recorded
one step before that stopping tensor; a producerless tensor ends the walk
with its own shape. -/
def specEntryShapeWalk (is2d : Bool) : Tensor → List (Option Int)
  | .mk _ recorded _ _ _ [] => recorded
  | .mk _ recorded _ _ _ (inp :: _) =>
    if inp.shape = [] ∨ (is2d = true ∧ inp.shape.length ≠ 4) then recorded
    else specEntryShapeWalk is2d inp

/-- Spec-side shape of a referenced endpoint (first binding of the name). -/
def endpointShape (endpoints : Endpoints) (n : String) : List (Option Int) :=
  match endpoints.find? (fun p => p.1 == n) with
  | some p => get_tensor_shape p.2
  | none => []

/-- `k` successor steps of the ordered-chain iteration. -/
def stepN (g : Graph) : Nat → Option Layer → Option Layer
  | 0, cur => cur
  | k + 1, cur => stepN g k (g.get_next_layer cur)

/-- Acyclicity of the first-successor relation, at the granularity of layer
names and bounded by the layer count (a cycle, if any exists, closes within
`g.layers.length` steps, so the bounded form is the decidable rendering of
acyclicity). -/
def AcyclicChain (g : Graph) : Prop :=
  ∀ layer ∈ g.layers, ∀ k ≤ g.layers.length,
    0 < k → (stepN g k (some layer)).map Layer.name ≠ some layer.name

instance (g : Graph) : Decidable (AcyclicChain g) := by
  unfold AcyclicChain
  infer_instance

/-- A list of layers is linked as a chain: each layer's `output_names`
begins with the next layer's name, and the last layer has no outputs. -/
def chainLinked : List Layer → Bool
  | [] => true
  | [l] => l.output_names.isEmpty
  | l1 :: l2 :: rest =>
    (l1.output_names.head? == some l2.name) && chainLinked (l2 :: rest)

/-- The chain's head is the unique entry: it has empty `input_names` and
every other chain member has non-empty `input_names`. -/
def chainEntry : List Layer → Bool
  | [] => true
  | l :: rest => l.input_names.isEmpty && rest.all (fun x => !x.input_names.isEmpty)

/-! ## Concrete inputs for witnesses and counterexamples -/

/-- A container-level layer with only the fields the Graph operations read. -/
def plainLayer (name : String) (ins outs : List String) : Layer :=
  { name := name, op_type := CONV_2D, input_names := ins, output_names := outs,
    input_shapes := [], output_shape := [], weights := none, bias := none,
    kernel_size := none, strides := none, padding := none, has_relu := false }

/-- Entry tensor feeding the first flatten endpoint of the example pass. -/
def tPlaceholderA : Tensor :=
  .mk 10 [some 1, some 2, some 2, some 1] 110 "Placeholder" [] []

/-- Endpoint tensor of the first (recognizable, flatten) example layer. -/
def tReshapeA : Tensor := .mk 11 [some 1, some 4] 111 "Reshape" [] [tPlaceholderA]

/-- Endpoint tensor of an unrecognizable example layer: its only owned op
has the unsupported type tag "CustomOp". -/
def tCustomBad : Tensor := .mk 12 [some 1, some 4] 112 "CustomOp" [] []

/-- Entry tensor feeding the second flatten endpoint of the example pass. -/
def tPlaceholderC : Tensor := .mk 13 [some 1, some 8] 113 "Placeholder" [] []

/-- Endpoint tensor of the second recognizable example layer. -/
def tReshapeC : Tensor := .mk 14 [some 1, some 8] 114 "Reshape" [] [tPlaceholderC]

/-- Endpoint mapping of the example pass: a recognizable layer, then a layer
named "ZZZ" whose op set matches no classification rule, then another
recognizable layer. -/
def epsParse : Endpoints :=
  [("lay_a", tReshapeA), ("ZZZ", tCustomBad), ("lay_c", tReshapeC)]

/-- Example dense-layer ops for the bias extraction: a MatMul and a plain
Add, but no BiasAdd. -/
def tDenseIn : Tensor := .mk 20 [some 1, some 16] 120 "Placeholder" [] []

/-- The dense weight tensor of the bias example. -/
def tDenseW : Tensor := .mk 21 [some 16, some 10] 121 "Const" [] []

/-- The would-be bias tensor of the dense fallback add op. -/
def tDenseB : Tensor := .mk 22 [some 10] 122 "Const" [] []

/-- The bias tensor behind a BiasAdd op. -/
def tConvB : Tensor := .mk 23 [some 8] 123 "Const" [] []

/-- A MatMul op owning the dense example's inputs. -/
def opMatMul : OpInfo := ⟨300, "MatMul", [], [tDenseIn, tDenseW]⟩

/-- A plain Add op whose second input is the would-be dense bias. -/
def opAdd : OpInfo := ⟨301, "Add", [], [tDenseIn, tDenseB]⟩

/-- A BiasAdd op whose second input is a bias tensor. -/
def opBiasAdd : OpInfo := ⟨302, "BiasAdd", [], [tDenseIn, tConvB]⟩

/-- A depthwise-convolution op (classification example). -/
def opDW : OpInfo := ⟨303, "DepthwiseConv2dNative", [], []⟩

/-- A plain convolution op (classification example). -/
def opPW : OpInfo := ⟨304, "Conv2D", [], []⟩

/-- A MaxPool op carrying the pooling attributes of the spec's example. -/
def opPool : OpInfo :=
  ⟨400, "MaxPool",
    [("ksize", .ints [1, 3, 3, 1]), ("strides", .ints [1, 2, 2, 1]),
     ("padding", .str "SAME")], []⟩

/-- A graph with exactly one entry ("A"), exactly one exit ("B") and a third
retained layer "C" that the first-successor chain never visits. -/
def gBranch : Graph :=
  { name := "cex",
    layers := [plainLayer "A" [] ["B"], plainLayer "B" ["A"] [],
               plainLayer "C" ["A"] ["B"]],
    removed_layer_names := [] }

/-- A two-layer linear chain graph X -> Y. -/
def gChain : Graph :=
  { name := "chain",
    layers := [plainLayer "X" [] ["Y"], plainLayer "Y" ["X"] []],
    removed_layer_names := [] }

/-- Container operations exercising add/remove/add-after-remove. -/
def opsExample : List GraphOp :=
  [.add (plainLayer "p" [] ["q"]), .add (plainLayer "q" ["p"] []),
   .remove (plainLayer "q" ["p"] []), .add (plainLayer "r" ["q"] [])]

/-- A two-layer graph for the removal frame claim. -/
def gKeep : Graph :=
  { name := "keep",
    layers := [plainLayer "K" [] ["M"], plainLayer "M" ["K"] []],
    removed_layer_names := [] }

/-- A one-layer graph whose single layer references a missing successor. -/
def gDangling : Graph :=
  { name := "dangling",
    layers := [plainLayer "D" [] ["ghost"]],
    removed_layer_names := [] }

/-- Endpoint mapping for the input-shape witness. -/
def epsShape : Endpoints := [("epA", tReshapeA)]

/-! ## Theorems -/

/-! ### Erase/scrub lemmas -/

theorem mem_of_mem_foldl_erase {x : String} :
    ∀ (names l : List String), x ∈ names.foldl List.erase l → x ∈ l := by
  intro names
  induction names with
  | nil => intro l h; exact h
  | cons m rest ih =>
    intro l h
    exact List.mem_of_mem_erase (ih (l.erase m) h)

theorem nodup_foldl_erase :
    ∀ (names l : List String), l.Nodup → (names.foldl List.erase l).Nodup := by
  intro names
  induction names with
  | nil => intro l h; exact h
  | cons m rest ih => intro l h; exact ih (l.erase m) (h.erase m)

theorem not_mem_foldl_erase {n : String} :
    ∀ (names l : List String), l.Nodup → n ∈ names →
      n ∉ names.foldl List.erase l := by
  intro names
  induction names with
  | nil => intro l _ h; exact absurd h (List.not_mem_nil n)
  | cons m rest ih =>
    intro l hnd hmem hcontra
    rcases List.mem_cons.mp hmem with heq | htail
    · subst heq
      have : n ∈ l.erase n := mem_of_mem_foldl_erase rest (l.erase n) hcontra
      exact ((hnd.mem_erase_iff).mp this).1 rfl
    · exact ih (l.erase m) (hnd.erase m) htail hcontra

/-! ### The C1 invariant machinery -/

theorem cleanGraph_step (g : Graph) (op : GraphOp)
    (hclean : cleanGraph g) (hnd : graphNodup g) (hok : graphOpSetLike op = true) :
    cleanGraph (applyGraphOp g op) ∧ graphNodup (applyGraphOp g op) := by
  cases op with
  | add layer =>
    simp only [graphOpSetLike, Bool.and_eq_true, decide_eq_true_eq] at hok
    constructor
    · intro l hl n hn
      simp only [applyGraphOp, Graph.add_layer, List.mem_append,
        List.mem_singleton] at hl
      rcases hl with hold | hnew
      · exact hclean l hold n hn
      · subst hnew
        exact ⟨not_mem_foldl_erase _ _ hok.1 hn, not_mem_foldl_erase _ _ hok.2 hn⟩
    · intro l hl
      simp only [applyGraphOp, Graph.add_layer, List.mem_append,
        List.mem_singleton] at hl
      rcases hl with hold | hnew
      · exact hnd l hold
      · subst hnew
        exact ⟨nodup_foldl_erase _ _ hok.1, nodup_foldl_erase _ _ hok.2⟩
  | remove layer =>
    constructor
    · intro l hl n hn
      simp only [applyGraphOp, Graph.remove_layer, List.mem_map] at hl
      obtain ⟨l0, hl0, rfl⟩ := hl
      simp only [applyGraphOp, Graph.remove_layer, List.mem_append,
        List.mem_singleton] at hn
      rcases hn with hold | hnamed
      · have := hclean l0 hl0 n hold
        exact ⟨fun hc => this.1 (List.mem_of_mem_erase hc),
               fun hc => this.2 (List.mem_of_mem_erase hc)⟩
      · subst hnamed
        have hnd0 := hnd l0 hl0
        exact ⟨fun hc => ((hnd0.1.mem_erase_iff).mp hc).1 rfl,
               fun hc => ((hnd0.2.mem_erase_iff).mp hc).1 rfl⟩
    · intro l hl
      simp only [applyGraphOp, Graph.remove_layer, List.mem_map] at hl
      obtain ⟨l0, hl0, rfl⟩ := hl
      have hnd0 := hnd l0 hl0
      exact ⟨hnd0.1.erase _, hnd0.2.erase _⟩

theorem cleanGraph_run (ops : List GraphOp) :
    ∀ g : Graph, cleanGraph g → graphNodup g →
      (∀ op ∈ ops, graphOpSetLike op = true) →
      cleanGraph (runGraphOps g ops) ∧ graphNodup (runGraphOps g ops) := by
  induction ops with
  | nil => intro g h1 h2 _; exact ⟨h1, h2⟩
  | cons op rest ih =>
    intro g h1 h2 hall
    have hstep := cleanGraph_step g op h1 h2 (hall op (List.mem_cons_self _ _))
    have := ih (applyGraphOp g op) hstep.1 hstep.2
      (fun o ho => hall o (List.mem_cons_of_mem _ ho))
    simpa [runGraphOps, List.foldl_cons] using this

/-- C1: for every sequence of `add_layer` / `remove_layer` operations on a
fresh Graph — with each added layer's `input_names` / `output_names`
duplicate-free, which is the data model's reading of them as name sets and
what `Layer.build` produces — no stored layer ever references a name in
`removed_layer_names`: `add_layer` scrubs the incoming layer against the
current removal set and `remove_layer` scrubs every stored layer and records
the name for future scrubbing. -/
theorem graph_removed_names_invariant (model_name : String) (ops : List GraphOp)
    (h : ∀ op ∈ ops, graphOpSetLike op = true) :
    cleanGraph (runGraphOps (Graph.init model_name) ops) :=
  (cleanGraph_run ops (Graph.init model_name)
    (by intro l hl; exact absurd hl (List.not_mem_nil l))
    (by intro l hl; exact absurd hl (List.not_mem_nil l)) h).1

/-- Witness for C1 at a concrete operation sequence: add "p" and "q",
remove "q", then add "r" (which arrives referencing the removed "q"). -/
theorem graph_removed_names_invariant_witness :
    (∀ op ∈ opsExample, graphOpSetLike op = true)
    ∧ cleanGraph (runGraphOps (Graph.init "w1") opsExample) :=
  ⟨by decide, graph_removed_names_invariant "w1" opsExample (by decide)⟩

/-! ### Classifier lemmas -/

theorem get_op_type_eq_spec (layer_ops : List OpInfo) :
    get_op_type layer_ops = opTypeSpec (layer_ops.map OpInfo.type) := by
  by_cases hdw : "DepthwiseConv2dNative" ∈ layer_ops.map OpInfo.type <;>
    by_cases hc : "Conv2D" ∈ layer_ops.map OpInfo.type <;>
    by_cases hm : "MatMul" ∈ layer_ops.map OpInfo.type <;>
    by_cases hmp : "MaxPool" ∈ layer_ops.map OpInfo.type <;>
    by_cases hap : "AvgPool" ∈ layer_ops.map OpInfo.type <;>
    by_cases hr : "Reshape" ∈ layer_ops.map OpInfo.type <;>
    simp [get_op_type, opTypeSpec, classifierFirstMatch, classifierRules,
      List.find?, hdw, hc, hm, hmp, hap, hr]

/-- C2: a layer whose owned op set contains both the depthwise-convolution
tag and the plain convolution tag classifies as separable-conv2d — which
differs from both depthwise-conv2d and conv2d — and in general the
classifier equals the spec's ordered seven-rule first-match scheme. -/
theorem classifier_separable_precedence (layer_ops : List OpInfo)
    (hdw : "DepthwiseConv2dNative" ∈ layer_ops.map OpInfo.type)
    (hconv : "Conv2D" ∈ layer_ops.map OpInfo.type) :
    get_op_type layer_ops = .ok DEPTHWISE_SEPARABLE_CONV_2D
    ∧ DEPTHWISE_SEPARABLE_CONV_2D ≠ DEPTHWISE_CONV_2D
    ∧ DEPTHWISE_SEPARABLE_CONV_2D ≠ CONV_2D
    ∧ ∀ ops2 : List OpInfo, get_op_type ops2 = opTypeSpec (ops2.map OpInfo.type) := by
  refine ⟨?_, by decide, by decide, get_op_type_eq_spec⟩
  have hdw2 : ∃ a, a ∈ layer_ops ∧ OpInfo.type a = "DepthwiseConv2dNative" := by
    simpa [List.mem_map] using hdw
  have hconv2 : ∃ a, a ∈ layer_ops ∧ OpInfo.type a = "Conv2D" := by
    simpa [List.mem_map] using hconv
  simp [get_op_type, hdw2, hconv2]

/-- Witness for C2: concrete op set holding both convolution tags. -/
theorem classifier_separable_precedence_witness :
    "DepthwiseConv2dNative" ∈ [opDW, opPW].map OpInfo.type
    ∧ "Conv2D" ∈ [opDW, opPW].map OpInfo.type
    ∧ get_op_type [opDW, opPW] = .ok DEPTHWISE_SEPARABLE_CONV_2D :=
  ⟨by decide, by decide,
    (classifier_separable_precedence [opDW, opPW] (by decide) (by decide)).1⟩

/-! ### Except reduction lemmas -/

theorem exceptBind_ok {ε α β : Type} (a : α) (f : α → Except ε β) :
    (Except.ok a >>= f) = f a := rfl

theorem exceptBind_error {ε α β : Type} (e : ε) (f : α → Except ε β) :
    ((Except.error e : Except ε α) >>= f) = Except.error e := rfl

theorem exceptMap_ok {ε α β : Type} (g : α → β) (a : α) :
    (g <$> (Except.ok a : Except ε α)) = Except.ok (g a) := rfl

theorem exceptMap_error {ε α β : Type} (g : α → β) (e : ε) :
    (g <$> (Except.error e : Except ε α)) = (Except.error e : Except ε β) := rfl

/-! ### C3: unrecognized layers abort the pass -/

theorem build_classifier_error (name : String) (endpoints : Endpoints) (t : Tensor)
    (ht : pyDictGet endpoints name = .ok t)
    (hmatch : classifierFirstMatch ((get_layer_ops endpoints t).map OpInfo.type)
      = none) :
    Layer.build name endpoints = .error (.exception unrecognizedLayerMsg) := by
  have hop : get_op_type (get_layer_ops endpoints t)
      = .error (.exception unrecognizedLayerMsg) := by
    rw [get_op_type_eq_spec, opTypeSpec, hmatch]
  simp [Layer.build, ht, hop, exceptBind_ok, exceptBind_error, exceptMap_ok,
    exceptMap_error]

theorem parseLoop_fail_fast (endpoints : Endpoints) (only_2d : Bool)
    (bad : String) (post : List String) (e : PyErr)
    (hbad : Layer.build bad endpoints = .error e) :
    ∀ (pre : List String), (∀ n ∈ pre, (Layer.build n endpoints).isOk = true) →
      ∀ g : Graph,
        parseLoop endpoints only_2d (pre ++ bad :: post) g = .error e
        ∧ parseLoop endpoints only_2d (pre ++ bad :: post) g
          = parseLoop endpoints only_2d (pre ++ [bad]) g := by
  intro pre
  induction pre with
  | nil =>
    intro _ g
    constructor <;>
      simp [parseLoop, hbad, exceptBind_error]
  | cons n rest ih =>
    intro hpre g
    have hn := hpre n (List.mem_cons_self _ _)
    obtain ⟨l, hl⟩ : ∃ l, Layer.build n endpoints = .ok l := by
      cases hb : Layer.build n endpoints with
      | ok l => exact ⟨l, rfl⟩
      | error e2 => rw [hb] at hn; exact absurd hn (by simp [Except.isOk, Except.toBool])
    have ihg := ih (fun m hm => hpre m (List.mem_cons_of_mem _ hm))
    constructor
    · simp only [List.cons_append, parseLoop, hl, exceptBind_ok]
      split
      · exact (ihg _).1
      · exact (ihg _).1
    · simp only [List.cons_append, parseLoop, hl, exceptBind_ok]
      split
      · exact (ihg _).2
      · exact (ihg _).2

/-- C3 (amended): a layer whose owned op set matches none of the seven
classification rules makes its construction — and hence the whole pass —
fail with the fatal exception carrying the fixed message "Could not match
layer with a known op type" (the report does not name the offending layer),
and no endpoint after the failing one is processed: the pass result does not
depend on the names after the failing one. -/
theorem unrecognized_layer_fail_fast (model_name : String) (endpoints : Endpoints)
    (only_2d : Bool) (pre post : List String) (bad : String) (t : Tensor)
    (hnames : endpoints.map Prod.fst = pre ++ bad :: post)
    (ht : pyDictGet endpoints bad = .ok t)
    (hmatch : classifierFirstMatch ((get_layer_ops endpoints t).map OpInfo.type)
      = none)
    (hpre : ∀ n ∈ pre, (Layer.build n endpoints).isOk = true) :
    Layer.build bad endpoints = .error (.exception unrecognizedLayerMsg)
    ∧ parse_tf_graph model_name endpoints only_2d
      = .error (.exception unrecognizedLayerMsg)
    ∧ parse_tf_graph model_name endpoints only_2d
      = parseLoop endpoints only_2d (pre ++ [bad]) (Graph.init model_name) := by
  have hbad := build_classifier_error bad endpoints t ht hmatch
  have hloop := parseLoop_fail_fast endpoints only_2d bad post
    (.exception unrecognizedLayerMsg) hbad pre hpre (Graph.init model_name)
  refine ⟨hbad, ?_, ?_⟩
  · rw [parse_tf_graph, hnames]; exact hloop.1
  · rw [parse_tf_graph, hnames]; exact hloop.2

/-- C3 counterexample to the claim as stated: the classifier failure report
is a fixed message that does not name the offending layer — here the layer
is named "ZZZ", yet the message contains no letter Z at all, and the whole
pass fails with that anonymous message. -/
theorem unrecognized_layer_not_named_cex :
    Layer.build "ZZZ" epsParse = .error (.exception unrecognizedLayerMsg)
    ∧ parse_tf_graph "m" epsParse false = .error (.exception unrecognizedLayerMsg)
    ∧ unrecognizedLayerMsg.data.contains (Char.ofNat 90) = false := by
  refine ⟨by rfl, by rfl, by decide⟩

/-- Witness for C3 (amended) at the concrete pass: one good flatten layer,
then the unrecognizable "ZZZ" layer, then another good layer that is never
reached. -/
theorem unrecognized_layer_fail_fast_witness :
    (∀ n ∈ ["lay_a"], (Layer.build n epsParse).isOk = true)
    ∧ parse_tf_graph "m2" epsParse false
      = .error (.exception unrecognizedLayerMsg)
    ∧ parse_tf_graph "m2" epsParse false
      = parseLoop epsParse false ["lay_a", "ZZZ"] (Graph.init "m2") :=
  ⟨by decide,
    (unrecognized_layer_fail_fast "m2" epsParse false ["lay_a"] ["lay_c"] "ZZZ"
      tCustomBad rfl rfl rfl (by decide)).2.1,
    (unrecognized_layer_fail_fast "m2" epsParse false ["lay_a"] ["lay_c"] "ZZZ"
      tCustomBad rfl rfl rfl (by decide)).2.2⟩

/-! ### C4: bias extraction and the broken dense fallback -/

/-- C4 (code defect evaluation): on a dense layer owning a MatMul and a
plain Add but no BiasAdd, `__get_bias` raises `NameError` for the unbound
bare name `__get_op_by_type` instead of returning the Add op's second input
as claimed; the BiasAdd branch itself does return the materialized second
input of the bias-add op; a non-dense layer with neither op fails with the
missing-bias exception. -/
theorem dense_bias_fallback_name_error :
    get_bias "fc1" DENSE [opMatMul, opAdd] = .error (.nameError "__get_op_by_type")
    ∧ get_bias "fc1" DENSE [opMatMul, opAdd]
      ≠ .ok (get_variable_from_graph tDenseB)
    ∧ get_bias "fc1" DENSE [opMatMul, opBiasAdd, opAdd]
      = .ok (get_variable_from_graph tConvB)
    ∧ get_bias "pool1" MAX_POOL_2D [opPool]
      = .error (.exception ("No bias found in layer: " ++ "pool1")) := by
  refine ⟨rfl, ?_, rfl, rfl⟩
  intro h
  rw [show get_bias "fc1" DENSE [opMatMul, opAdd]
    = .error (.nameError "__get_op_by_type") from rfl] at h
  exact Except.noConfusion h

/-! ### C9: remove_layer never deletes from the sequence -/

theorem scrubLayerName_name (n : String) (l : Layer) :
    (scrubLayerName n l).name = l.name := rfl

theorem find_layer_remove_layer (g : Graph) (l : Layer) (n : String) :
    (g.remove_layer l).find_layer n
      = ((g.find_layer n).map (scrubLayerName l.name)) := by
  simp only [Graph.find_layer, Graph.remove_layer, List.find?_map]
  congr 1

/-- C9: `remove_layer` only rewrites connectivity names and records the
removed name — the layer list keeps its length and its name sequence, the
removed layer (with its own connectivity scrubbed in place) is still in the
sequence, and `find_layer` on its name still returns it. -/
theorem remove_layer_keeps_layer (g : Graph) (l : Layer)
    (hmem : l ∈ g.layers) (hfind : g.find_layer l.name = some l) :
    (g.remove_layer l).layers.map Layer.name = g.layers.map Layer.name
    ∧ (g.remove_layer l).layers.length = g.layers.length
    ∧ scrubLayerName l.name l ∈ (g.remove_layer l).layers
    ∧ (scrubLayerName l.name l).name = l.name
    ∧ (g.remove_layer l).find_layer l.name = some (scrubLayerName l.name l) := by
  refine ⟨?_, ?_, ?_, rfl, ?_⟩
  · simp [Graph.remove_layer, List.map_map]
    intro a _
    rfl
  · simp [Graph.remove_layer]
  · exact List.mem_map_of_mem _ hmem
  · rw [find_layer_remove_layer, hfind, Option.map_some']

/-- Witness for C9: removing "K" from a two-layer graph keeps it stored and
findable. -/
theorem remove_layer_keeps_layer_witness :
    plainLayer "K" [] ["M"] ∈ gKeep.layers
    ∧ (gKeep.remove_layer (plainLayer "K" [] ["M"])).layers.map Layer.name
      = gKeep.layers.map Layer.name
    ∧ (gKeep.remove_layer (plainLayer "K" [] ["M"])).find_layer "K"
      = some (scrubLayerName "K" (plainLayer "K" [] ["M"])) :=
  ⟨List.mem_cons_self _ _,
    (remove_layer_keeps_layer gKeep (plainLayer "K" [] ["M"])
      (List.mem_cons_self _ _) rfl).1,
    (remove_layer_keeps_layer gKeep (plainLayer "K" [] ["M"])
      (List.mem_cons_self _ _) rfl).2.2.2.2⟩

/-! ### C10: a dangling successor reference ends the chain silently -/

theorem orderedAux_none (g : Graph) : ∀ fuel, orderedAux g fuel none = [] := by
  intro fuel
  cases fuel <;> rfl

/-- C10: when a layer's `output_names` starts with a name no stored layer
bears, `get_next_layer` returns `none` (the `find_layer` miss is passed
through, no lookup failure is raised), and the ordered-chain loop ends at
that layer. -/
theorem dangling_next_layer_none (g : Graph) (l : Layer) (n : String)
    (rest : List String) (hout : l.output_names = n :: rest)
    (hmiss : ∀ x ∈ g.layers, x.name ≠ n) :
    g.get_next_layer (some l) = none
    ∧ ∀ fuel, orderedAux g (fuel + 1) (some l) = [l] := by
  have hfind : g.find_layer n = none := by
    rw [Graph.find_layer, List.find?_eq_none]
    intro x hx
    simpa using hmiss x hx
  have hnext : g.get_next_layer (some l) = none := by
    simp [Graph.get_next_layer, hout, hfind]
  refine ⟨hnext, fun fuel => ?_⟩
  simp [orderedAux, hnext, orderedAux_none]

/-- Witness for C10: the single layer "D" references the absent "ghost". -/
theorem dangling_next_layer_none_witness :
    (plainLayer "D" [] ["ghost"]).output_names = "ghost" :: []
    ∧ gDangling.get_next_layer (some (plainLayer "D" [] ["ghost"])) = none
    ∧ orderedAux gDangling 5 (some (plainLayer "D" [] ["ghost"]))
      = [plainLayer "D" [] ["ghost"]] :=
  ⟨rfl,
    (dangling_next_layer_none gDangling (plainLayer "D" [] ["ghost"]) "ghost" []
      rfl (by decide)).1,
    (dangling_next_layer_none gDangling (plainLayer "D" [] ["ghost"]) "ghost" []
      rfl (by decide)).2 4⟩

/-! ### C5: the ordered chain on a linear-chain graph -/

theorem find?_eq_some_of_unique {α : Type} (p : α → Bool) :
    ∀ (l : List α) (x : α), x ∈ l → p x = true →
      (∀ y ∈ l, p y = true → y = x) → l.find? p = some x := by
  intro l
  induction l with
  | nil => intro x hx; exact absurd hx (List.not_mem_nil x)
  | cons a rest ih =>
    intro x hx hpx huniq
    by_cases ha : p a = true
    · rw [List.find?_cons_of_pos _ ha]
      exact congrArg some (huniq a (List.mem_cons_self _ _) ha)
    · rw [List.find?_cons_of_neg _ (by simpa using ha)]
      rcases List.mem_cons.mp hx with heq | htail
      · subst heq; exact absurd hpx ha
      · exact ih x htail hpx (fun y hy => huniq y (List.mem_cons_of_mem _ hy))

theorem find_layer_of_mem_nodup (g : Graph) (l : Layer)
    (hnames : (g.layers.map Layer.name).Nodup) (hmem : l ∈ g.layers) :
    g.find_layer l.name = some l := by
  apply find?_eq_some_of_unique _ _ _ hmem (by simp)
  intro y hy hpy
  exact List.inj_on_of_nodup_map hnames hy hmem (by simpa using hpy)

theorem orderedAux_linked (g : Graph)
    (hnames : (g.layers.map Layer.name).Nodup) :
    ∀ (c : List Layer) (l : Layer), chainLinked (l :: c) = true →
      (∀ x ∈ l :: c, x ∈ g.layers) →
      ∀ fuel, (l :: c).length ≤ fuel →
        orderedAux g fuel (some l) = l :: c := by
  intro c
  induction c with
  | nil =>
    intro l hlink _ fuel hfuel
    obtain ⟨f, rfl⟩ : ∃ f, fuel = f + 1 := by
      cases fuel with
      | zero => simp at hfuel
      | succ f => exact ⟨f, rfl⟩
    have hout : l.output_names = [] := by
      simpa [chainLinked, List.isEmpty_iff] using hlink
    simp [orderedAux, Graph.get_next_layer, hout, orderedAux_none]
  | cons l2 rest ih =>
    intro l hlink hmem fuel hfuel
    obtain ⟨f, rfl⟩ : ∃ f, fuel = f + 1 := by
      cases fuel with
      | zero => simp at hfuel
      | succ f => exact ⟨f, rfl⟩
    have hlink2 : chainLinked (l2 :: rest) = true := by
      have := hlink
      simp only [chainLinked, Bool.and_eq_true] at this
      exact this.2
    have hhead : l.output_names.head? = some l2.name := by
      have := hlink
      simp only [chainLinked, Bool.and_eq_true] at this
      simpa using this.1
    obtain ⟨tl, hout⟩ : ∃ tl, l.output_names = l2.name :: tl := by
      cases ho : l.output_names with
      | nil => rw [ho] at hhead; simp at hhead
      | cons a tl =>
        rw [ho] at hhead
        simp only [List.head?_cons, Option.some.injEq] at hhead
        exact ⟨tl, by rw [hhead]⟩
    have hfind : g.find_layer l2.name = some l2 :=
      find_layer_of_mem_nodup g l2 hnames
        (hmem l2 (List.mem_cons_of_mem _ (List.mem_cons_self _ _)))
    have hnext : g.get_next_layer (some l) = some l2 := by
      simp [Graph.get_next_layer, hout, hfind]
    have hrest := ih l2 hlink2
      (fun x hx => hmem x (List.mem_cons_of_mem _ hx)) f
      (by simpa using Nat.lt_succ_iff.mp (by simpa using hfuel))
    simp [orderedAux, hnext, hrest]

/-- C5 (amended): on a Graph whose retained layers form one linear chain —
an enumeration of the layers with the unique entry first, each layer's
`output_names` beginning with the next layer's name, the last layer without
outputs, and layer names duplicate-free — `get_ordered_layers` (with fuel at
least the layer count) returns exactly that enumeration: its length equals
the number of retained layers and every retained layer appears exactly
once.  (The claim's own hypothesis — exactly one entry and exactly one exit
— is not sufficient; see the counterexample.) -/
theorem ordered_layers_linear_chain (g : Graph) (c : List Layer)
    (hperm : g.layers.Perm c)
    (hnames : (g.layers.map Layer.name).Nodup)
    (hentry : chainEntry c = true)
    (hlink : chainLinked c = true)
    (fuel : Nat) (hfuel : g.layers.length ≤ fuel) :
    g.get_ordered_layers fuel = c
    ∧ (g.get_ordered_layers fuel).Perm g.layers
    ∧ (g.get_ordered_layers fuel).length = g.layers.length
    ∧ (g.get_ordered_layers fuel).Nodup := by
  have hmain : g.get_ordered_layers fuel = c := by
    cases c with
    | nil =>
      have hl : g.layers = [] := hperm.eq_nil
      simp [Graph.get_ordered_layers, Graph.get_input_layer, hl, orderedAux_none]
    | cons c0 crest =>
      have hmemc : ∀ x ∈ c0 :: crest, x ∈ g.layers :=
        fun x hx => hperm.mem_iff.mpr hx
      have hentry0 : c0.input_names.isEmpty = true := by
        simp only [chainEntry, Bool.and_eq_true] at hentry
        exact hentry.1
      have hentryrest : ∀ x ∈ crest, x.input_names.isEmpty = false := by
        simp only [chainEntry, Bool.and_eq_true, List.all_eq_true] at hentry
        intro x hx
        simpa using hentry.2 x hx
      have hinput : g.get_input_layer = some c0 := by
        apply find?_eq_some_of_unique _ _ _ (hmemc c0 (List.mem_cons_self _ _))
          hentry0
        intro y hy hpy
        rcases List.mem_cons.mp (hperm.mem_iff.mp hy) with heq | htail
        · exact heq
        · rw [hentryrest y htail] at hpy; exact absurd hpy (by simp)
      rw [Graph.get_ordered_layers, hinput]
      exact orderedAux_linked g hnames crest c0 hlink hmemc fuel
        (by rwa [hperm.length_eq] at hfuel)
  have hlnodup : g.layers.Nodup := List.Nodup.of_map _ hnames
  refine ⟨hmain, ?_, ?_, ?_⟩
  · rw [hmain]; exact hperm.symm
  · rw [hmain, hperm.length_eq]
  · rw [hmain]; exact hperm.nodup_iff.mp hlnodup

/-- C5 counterexample to the claim as stated: `gBranch` has exactly one
layer with empty `input_names` and exactly one with empty `output_names`,
yet the ordered chain visits only 2 of its 3 retained layers — the layer
count hypothesis of the claim does not make the chain exhaustive.  (Fuel 3
equals the layer count; fuel 10 shows the chain has stabilized.) -/
theorem ordered_layers_single_entry_exit_cex :
    (gBranch.layers.filter (fun l => l.input_names.isEmpty)).length = 1
    ∧ (gBranch.layers.filter (fun l => l.output_names.isEmpty)).length = 1
    ∧ gBranch.layers.length = 3
    ∧ (gBranch.get_ordered_layers 3).map Layer.name = ["A", "B"]
    ∧ (gBranch.get_ordered_layers 10).map Layer.name = ["A", "B"]
    ∧ (gBranch.get_ordered_layers 3).length ≠ gBranch.layers.length := by
  refine ⟨by decide, by decide, by decide, by decide, by decide, by decide⟩

/-- Witness for C5 (amended) on the two-layer chain X -> Y. -/
theorem ordered_layers_linear_chain_witness :
    chainEntry gChain.layers = true
    ∧ chainLinked gChain.layers = true
    ∧ (gChain.layers.map Layer.name).Nodup
    ∧ gChain.get_ordered_layers 2 = gChain.layers
    ∧ (gChain.get_ordered_layers 2).length = gChain.layers.length :=
  ⟨by decide, by decide, by decide,
    (ordered_layers_linear_chain gChain gChain.layers (List.Perm.refl _)
      (by decide) (by decide) (by decide) 2 (by decide)).1,
    (ordered_layers_linear_chain gChain gChain.layers (List.Perm.refl _)
      (by decide) (by decide) (by decide) 2 (by decide)).2.2.1⟩

/-! ### C6: termination of the ordered chain on acyclic graphs -/

theorem stepN_none (g : Graph) : ∀ k, stepN g k none = none := by
  intro k
  induction k with
  | zero => rfl
  | succ k ih =>
    show stepN g k (g.get_next_layer none) = none
    exact ih

theorem stepN_add (g : Graph) : ∀ (a b : Nat) (cur : Option Layer),
    stepN g (a + b) cur = stepN g b (stepN g a cur) := by
  intro a
  induction a with
  | zero =>
    intro b cur
    rw [Nat.zero_add]
    rfl
  | succ a ih =>
    intro b cur
    have h1 : a + 1 + b = a + b + 1 := by omega
    rw [h1]
    show stepN g (a + b) (g.get_next_layer cur) = _
    rw [ih b (g.get_next_layer cur)]
    rfl

theorem stepN_succ_out (g : Graph) (k : Nat) (cur : Option Layer) :
    stepN g (k + 1) cur = g.get_next_layer (stepN g k cur) := by
  rw [stepN_add g k 1 cur]
  rfl

theorem orderedAux_stable (g : Graph) :
    ∀ (k : Nat) (cur : Option Layer), stepN g k cur = none →
      ∀ fuel, k ≤ fuel → orderedAux g fuel cur = orderedAux g k cur := by
  intro k
  induction k with
  | zero =>
    intro cur hstep fuel _
    simp only [stepN] at hstep
    subst hstep
    rw [orderedAux_none, orderedAux_none]
  | succ k ih =>
    intro cur hstep fuel hfuel
    cases cur with
    | none => rw [orderedAux_none, orderedAux_none]
    | some l =>
      obtain ⟨f, rfl⟩ : ∃ f, fuel = f + 1 := ⟨fuel - 1, by omega⟩
      have hs : stepN g k (g.get_next_layer (some l)) = none := hstep
      show l :: orderedAux g f (g.get_next_layer (some l))
          = l :: orderedAux g k (g.get_next_layer (some l))
      rw [ih (g.get_next_layer (some l)) hs f (by omega)]

theorem get_next_layer_some (g : Graph) (cur : Option Layer) (l : Layer)
    (h : g.get_next_layer cur = some l) :
    l ∈ g.layers ∧ g.find_layer l.name = some l := by
  cases cur with
  | none => exact absurd h (by simp [Graph.get_next_layer])
  | some p =>
    simp only [Graph.get_next_layer] at h
    cases ho : p.output_names with
    | nil => rw [ho] at h; exact absurd h (by simp)
    | cons n rest =>
      rw [ho] at h
      have hmem : l ∈ g.layers := List.mem_of_find?_eq_some h
      have hname : l.name = n := by simpa using List.find?_some h
      refine ⟨hmem, ?_⟩
      rw [hname]
      exact h

theorem stepN_pos_some (g : Graph) (i : Nat) (hi : 0 < i) (cur : Option Layer)
    (l : Layer) (h : stepN g i cur = some l) :
    l ∈ g.layers ∧ g.find_layer l.name = some l := by
  obtain ⟨j, rfl⟩ : ∃ j, i = j + 1 := ⟨i - 1, by omega⟩
  rw [stepN_succ_out] at h
  exact get_next_layer_some g _ l h

theorem exists_stepN_none (g : Graph) (h : AcyclicChain g) (cur : Option Layer) :
    ∃ k ≤ g.layers.length + 1, stepN g k cur = none := by
  by_contra hcon
  push_neg at hcon
  have hsome : ∀ i ∈ Finset.range (g.layers.length + 1),
      ∃ l, stepN g (i + 1) cur = some l ∧ l ∈ g.layers
        ∧ g.find_layer l.name = some l := by
    intro i hi
    have hi2 : i + 1 ≤ g.layers.length + 1 := Finset.mem_range.mp hi
    cases hs : stepN g (i + 1) cur with
    | none => exact absurd hs (hcon (i + 1) hi2)
    | some l => exact ⟨l, rfl, stepN_pos_some g (i + 1) (by omega) cur l hs⟩
  have hmaps : ∀ i ∈ Finset.range (g.layers.length + 1),
      ((stepN g (i + 1) cur).map Layer.name).getD ""
        ∈ (g.layers.map Layer.name).toFinset := by
    intro i hi
    obtain ⟨l, hs, hmem, _⟩ := hsome i hi
    simp only [hs, Option.map_some', Option.getD_some]
    exact List.mem_toFinset.mpr (List.mem_map_of_mem _ hmem)
  have hcard : ((g.layers.map Layer.name).toFinset).card
      < (Finset.range (g.layers.length + 1)).card := by
    calc ((g.layers.map Layer.name).toFinset).card
        ≤ (g.layers.map Layer.name).length := List.toFinset_card_le _
      _ = g.layers.length := List.length_map _ _
      _ < g.layers.length + 1 := Nat.lt_succ_self _
      _ = (Finset.range (g.layers.length + 1)).card := (Finset.card_range _).symm
  obtain ⟨i, hi, j, hj, hne, heq⟩ :=
    Finset.exists_ne_map_eq_of_card_lt_of_maps_to hcard hmaps
  have key : ∀ a b : Nat, a ∈ Finset.range (g.layers.length + 1) →
      b ∈ Finset.range (g.layers.length + 1) → a < b →
      ((stepN g (a + 1) cur).map Layer.name).getD ""
        = ((stepN g (b + 1) cur).map Layer.name).getD "" → False := by
    intro a b ha hb hab hFeq
    obtain ⟨la, hsa, hmema, hfar⟩ := hsome a ha
    obtain ⟨lb, hsb, hmemb, hfbr⟩ := hsome b hb
    rw [hsa, hsb] at hFeq
    simp only [Option.map_some', Option.getD_some] at hFeq
    have hlab : la = lb := by
      rw [← hFeq] at hfbr
      rw [hfar] at hfbr
      exact Option.some_injective _ hfbr
    subst hlab
    have hsplit : stepN g (b + 1) cur = stepN g (b - a) (stepN g (a + 1) cur) := by
      rw [← stepN_add]
      congr 1
      omega
    rw [hsa, hsb] at hsplit
    have hcycle : (stepN g (b - a) (some la)).map Layer.name = some la.name := by
      rw [← hsplit]
      rfl
    have hblen : b ≤ g.layers.length := by
      have := Finset.mem_range.mp hb
      omega
    exact h la hmema (b - a) (by omega) (by omega) hcycle
  rcases hne.lt_or_lt with hij | hij
  · exact key i j hi hj hij heq
  · exact key j i hj hi hij heq.symm

/-- C6: on a Graph whose first-successor relation (at name granularity,
bounded by the layer count) is acyclic, the ordered-chain loop terminates:
its value stabilizes at fuel `layers.length + 1`, so the loop returns that
finite sequence; and each iteration either advances to a layer of a
different name or stops. -/
theorem ordered_layers_terminate (g : Graph) (h : AcyclicChain g) :
    (∀ fuel, g.layers.length + 1 ≤ fuel →
      g.get_ordered_layers fuel = g.get_ordered_layers (g.layers.length + 1))
    ∧ ∀ layer ∈ g.layers,
        (g.get_next_layer (some layer)).map Layer.name ≠ some layer.name := by
  constructor
  · obtain ⟨k, hk, hnone⟩ := exists_stepN_none g h g.get_input_layer
    intro fuel hfuel
    rw [Graph.get_ordered_layers, Graph.get_ordered_layers]
    rw [orderedAux_stable g k _ hnone fuel (by omega),
      orderedAux_stable g k _ hnone (g.layers.length + 1) (by omega)]
  · intro layer hmem
    have hlen : 0 < g.layers.length := List.length_pos_of_mem hmem
    exact h layer hmem 1 (by omega) (by omega)

/-- Witness for C6: the two-layer chain X -> Y is acyclic and its ordered
chain is already stable between fuel 3 and fuel 7. -/
theorem ordered_layers_terminate_witness :
    AcyclicChain gChain
    ∧ gChain.get_ordered_layers 7 = gChain.get_ordered_layers 3 :=
  ⟨by decide, (ordered_layers_terminate gChain (by decide)).1 7 (by decide)⟩

/-! ### C7: input shape derivation -/

theorem stopCond_iff (is2d : Bool) (inp : Tensor) :
    ((get_tensor_shape inp).isEmpty
      || (is2d && !((get_tensor_shape inp).length == 4))) = true
    ↔ (inp.shape = [] ∨ (is2d = true ∧ inp.shape.length ≠ 4)) := by
  simp [get_tensor_shape, List.isEmpty_iff]

theorem specEntryShapeWalk_eq (is2d : Bool) :
    ∀ t : Tensor, specEntryShapeWalk is2d t = inputShapeWalk is2d t
  | .mk _ s oid oty ats [] => rfl
  | .mk tid s oid oty ats (inp :: rest) => by
    have ih := specEntryShapeWalk_eq is2d inp
    by_cases hc : inp.shape = [] ∨ (is2d = true ∧ inp.shape.length ≠ 4)
    · have hb := (stopCond_iff is2d inp).mpr hc
      simp [specEntryShapeWalk, inputShapeWalk, hc, hb]
    · have hb : ¬ (((get_tensor_shape inp).isEmpty
          || (is2d && !((get_tensor_shape inp).length == 4))) = true) :=
        fun hcontra => hc ((stopCond_iff is2d inp).mp hcontra)
      simp [specEntryShapeWalk, inputShapeWalk, hc, hb, ih]

theorem mapM_endpoint_shapes (endpoints : Endpoints) :
    ∀ (names : List String), (∀ n ∈ names, n ∈ endpoints.map Prod.fst) →
      names.mapM (fun n => (pyDictGet endpoints n).map get_tensor_shape)
        = .ok (names.map (endpointShape endpoints)) := by
  intro names
  induction names with
  | nil => intro _; rfl
  | cons n rest ih =>
    intro hall
    have hn := hall n (List.mem_cons_self _ _)
    obtain ⟨p, hp⟩ : ∃ p, endpoints.find? (fun q => q.1 == n) = some p := by
      rw [← Option.isSome_iff_exists, List.find?_isSome]
      obtain ⟨q, hq, hq2⟩ := List.mem_map.mp hn
      exact ⟨q, hq, by simpa using hq2⟩
    rw [List.mapM_cons,
      ih (fun m hm => hall m (List.mem_cons_of_mem _ hm))]
    simp [pyDictGet, hp, endpointShape, exceptBind_ok, exceptMap_ok, Except.map]

/-- C7: for a layer with empty `input_names`, `input_shapes` is the single
shape synthesized by the backward walk the claim describes (the spec-side
`specEntryShapeWalk`); for a layer with non-empty `input_names` whose
referenced endpoints exist, it is the list of the referenced endpoints'
tensor shapes, in `input_names` order. -/
theorem input_shapes_characterization (endpoints : Endpoints)
    (input_names : List String) (op_type : String) (t : Tensor) :
    (input_names = [] →
      get_input_shapes endpoints input_names op_type t
        = .ok [specEntryShapeWalk (LAYER_TYPES_2D.contains op_type) t])
    ∧ (input_names ≠ [] →
      (∀ n ∈ input_names, n ∈ endpoints.map Prod.fst) →
      get_input_shapes endpoints input_names op_type t
        = .ok (input_names.map (endpointShape endpoints))) := by
  constructor
  · intro h
    subst h
    simp [get_input_shapes, specEntryShapeWalk_eq]
  · intro hne hall
    have hemp : input_names.isEmpty = false := by
      cases input_names with
      | nil => exact absurd rfl hne
      | cons a l => rfl
    rw [get_input_shapes, hemp]
    simp only [Bool.false_eq_true, if_false]
    exact mapM_endpoint_shapes endpoints input_names hall

/-- Witness for C7: the entry walk of the flatten example tensor, and the
one-endpoint lookup case. -/
theorem input_shapes_characterization_witness :
    get_input_shapes epsShape [] FLATTEN tReshapeA
      = .ok [specEntryShapeWalk (LAYER_TYPES_2D.contains FLATTEN) tReshapeA]
    ∧ (∀ n ∈ ["epA"], n ∈ epsShape.map Prod.fst)
    ∧ get_input_shapes epsShape ["epA"] DENSE tCustomBad
      = .ok (["epA"].map (endpointShape epsShape)) :=
  ⟨(input_shapes_characterization epsShape [] FLATTEN tReshapeA).1 rfl,
    by decide,
    (input_shapes_characterization epsShape ["epA"] DENSE tCustomBad).2
      (by decide) (by decide)⟩

/-! ### C8: pooling layer attribute extraction -/

/-- C8: for a pooling layer, the extracted kernel size is positions 1 and 2
of the pooling op's `ksize` attribute, the strides are positions 1 and 2 of
the governing op's `strides` attribute, and the padding is the `padding`
attribute unchanged. -/
theorem pooling_attribute_extraction (name : String) (op_type : String)
    (w : Option Weights) (layer_ops : List OpInfo) (op : OpInfo)
    (ks st : List Int) (pad : AttrVal) (k1 k2 s1 s2 : Int)
    (hpool : op_type = MAX_POOL_2D ∨ op_type = AVG_POOL_2D)
    (hop : get_2d_op name op_type layer_ops = .ok (some op))
    (hks : pyGetAttr (some op) "ksize" = .ok (.ints ks))
    (hst : pyGetAttr (some op) "strides" = .ok (.ints st))
    (hpad : pyGetAttr (some op) "padding" = .ok pad)
    (hk1 : ks[1]? = some k1) (hk2 : ks[2]? = some k2)
    (hs1 : st[1]? = some s1) (hs2 : st[2]? = some s2) :
    get_kernel_size name op_type w layer_ops = .ok [some k1, some k2]
    ∧ get_strides name op_type layer_ops = .ok (s1, s2)
    ∧ get_padding name op_type layer_ops = .ok pad := by
  have eA1 : MAX_POOL_2D ≠ DEPTHWISE_SEPARABLE_CONV_2D := by decide
  have eA2 : MAX_POOL_2D ≠ DEPTHWISE_CONV_2D := by decide
  have eA3 : MAX_POOL_2D ≠ CONV_2D := by decide
  have eB1 : AVG_POOL_2D ≠ DEPTHWISE_SEPARABLE_CONV_2D := by decide
  have eB2 : AVG_POOL_2D ≠ DEPTHWISE_CONV_2D := by decide
  have eB3 : AVG_POOL_2D ≠ CONV_2D := by decide
  have eB4 : AVG_POOL_2D ≠ MAX_POOL_2D := by decide
  rcases hpool with h | h <;> subst h <;>
    refine ⟨?_, ?_, ?_⟩ <;>
    simp [get_kernel_size, get_strides, get_padding, hop, hks, hst, hpad,
      pyIndex, hk1, hk2, hs1, hs2, exceptBind_ok, exceptBind_error,
      exceptMap_ok, Except.map, eA1, eA2, eA3, eB1, eB2, eB3, eB4]

/-- Witness for C8 at the spec's example values: `ksize=[1,3,3,1]`,
`strides=[1,2,2,1]`, `padding="SAME"`. -/
theorem pooling_attribute_extraction_witness :
    get_kernel_size "pool1" MAX_POOL_2D none [opPool] = .ok [some 3, some 3]
    ∧ get_strides "pool1" MAX_POOL_2D [opPool] = .ok (2, 2)
    ∧ get_padding "pool1" MAX_POOL_2D [opPool] = .ok (.str "SAME") :=
  pooling_attribute_extraction "pool1" MAX_POOL_2D none [opPool] opPool
    [1, 3, 3, 1] [1, 2, 2, 1] (.str "SAME") 3 3 2 2 (Or.inl rfl)
    rfl rfl rfl rfl rfl rfl rfl rfl
